import Mathlib

/-!
Verification of the `drop` TFTP upload tool against its specification.

The development shallowly embeds the C sources:
  * `src/lib/tftp.c`  — the packet codec (`tftp_parse`, `tftp_rrq`, `tftp_wrq`,
    `tftp_data`, `tftp_ack`, `tftp_error`) and the client/server lockstep
    loops (`tftp_send_wrq`, `tftp_handle_wrq`);
  * `src/src/daemon.c` — the multi-session server (`tftp_sessions_list_*`,
    `tftp_session_advance`, `tftp_transfer`).

Bytes are modelled as natural numbers (values < 256 on the wire), buffers as
lists of bytes, the C `expected<T>` carriers as `Except`/explicit result
inductives.  A C `assert` that fires and a `__builtin_unreachable()` that is
reached are modelled as distinguished outcomes, since both abort or make the
program undefined.
-/

/-- TFTP_BLOCK_SIZE from include/drop/tftp.h. -/
def TFTP_BLOCK_SIZE : Nat := 512

/-- Size of `tftp_buffer_t.buffer`, i.e. TFTP_BLOCK_SIZE + 4 bytes. -/
def tftpBufferCapacity : Nat := TFTP_BLOCK_SIZE + 4

/-- errno value EMSGSIZE (Linux) used by the codec for capacity failures. -/
def EMSGSIZE : Nat := 90

/-- errno value EBADMSG (Linux) used for truncated strings. -/
def EBADMSG : Nat := 74

/-- errno value ETIMEDOUT (Linux) returned by `tftp_recv` on select timeout. -/
def ETIMEDOUT : Nat := 110

/-- The tagged packet union `tftp_packet_t` of lib/tftp.c: opcode plus the
per-opcode payload.  Strings (`filename`, `mode`, `message`) are byte lists
without the terminating NUL; `block` and `code` are u16 values. -/
inductive Packet where
  | rrq (filename mode : List Nat)
  | wrq (filename mode : List Nat)
  | data (block : Nat) (payload : List Nat)
  | ack (block : Nat)
  | error (code : Nat) (message : List Nat)
deriving DecidableEq

/-- Result of `tftp_parse`: `ok` for `has_value = true`, `err e` for
`has_value = false` with errno `e`, and `undefinedBehavior` for the
`default: __builtin_unreachable();` branch of the opcode switch. -/
inductive ParseResult where
  | ok (p : Packet)
  | err (e : Nat)
  | undefinedBehavior
deriving DecidableEq

/-- tftp_buffer_read_uint16_t: fails with EMSGSIZE when fewer than two bytes
remain, otherwise consumes two bytes and returns their big-endian value
(`ntohs` of the copied bytes). -/
def tftp_buffer_read_uint16 (r : List Nat) : Except Nat (Nat × List Nat) :=
  match r with
  | b0 :: b1 :: rest => .ok (b0 * 256 + b1, rest)
  | _ => .error EMSGSIZE

/-- tftp_buffer_read_string: `strnlen` over the remaining bytes; if no NUL is
found within them the result is EBADMSG, otherwise the bytes before the first
NUL are returned and the reader advances past the NUL. -/
def tftp_buffer_read_string (r : List Nat) : Except Nat (List Nat × List Nat) :=
  match r.findIdx? (fun b => b = 0) with
  | none => .error EBADMSG
  | some len => .ok (r.take len, r.drop (len + 1))

/-- tftp_parse of lib/tftp.c: reads the opcode, dispatches on it, and reaches
`__builtin_unreachable()` for any opcode outside 1..5.  `buffer` is the 516
byte scratch buffer, `size` the datagram length; the reader view covers the
first `size` bytes only. -/
def tftp_parse (buffer : List Nat) (size : Nat) : ParseResult :=
  let r := buffer.take size
  match tftp_buffer_read_uint16 r with
  | .error e => .err e
  | .ok (opcode, rest) =>
    match opcode with
    | 1 =>
      match tftp_buffer_read_string rest with
      | .error e => .err e
      | .ok (filename, rest) =>
        match tftp_buffer_read_string rest with
        | .error e => .err e
        | .ok (mode, _) => .ok (.rrq filename mode)
    | 2 =>
      match tftp_buffer_read_string rest with
      | .error e => .err e
      | .ok (filename, rest) =>
        match tftp_buffer_read_string rest with
        | .error e => .err e
        | .ok (mode, _) => .ok (.wrq filename mode)
    | 3 =>
      match tftp_buffer_read_uint16 rest with
      | .error e => .err e
      | .ok (block, rest) => .ok (.data block rest)
    | 4 =>
      match tftp_buffer_read_uint16 rest with
      | .error e => .err e
      | .ok (block, _) => .ok (.ack block)
    | 5 =>
      match tftp_buffer_read_uint16 rest with
      | .error e => .err e
      | .ok (code, rest) =>
        match tftp_buffer_read_string rest with
        | .error e => .err e
        | .ok (message, _) => .ok (.error code message)
    | _ => .undefinedBehavior

/-- tftp_buffer_write_data: append `d` to the bytes written so far, failing
with EMSGSIZE when the remaining capacity of the 516-byte buffer is too
small. -/
def tftp_buffer_write_data (w : List Nat) (d : List Nat) : Except Nat (List Nat) :=
  if tftpBufferCapacity - w.length < d.length then .error EMSGSIZE
  else .ok (w ++ d)

/-- tftp_buffer_write_uint16_t: `htons` the value and write its two bytes
(big-endian). -/
def tftp_buffer_write_uint16 (w : List Nat) (v : Nat) : Except Nat (List Nat) :=
  tftp_buffer_write_data w [v / 256 % 256, v % 256]

/-- tftp_buffer_write_string: write the bytes of the string including the
terminating NUL. -/
def tftp_buffer_write_string (w : List Nat) (s : List Nat) : Except Nat (List Nat) :=
  tftp_buffer_write_data w (s ++ [0])

/-- tftp_rrq: encode an RRQ (opcode 1, filename, mode).  Returns the bytes
written; its length is the size the C function returns. -/
def tftp_rrq (filename mode : List Nat) : Except Nat (List Nat) := do
  let w ← tftp_buffer_write_uint16 [] 1
  let w ← tftp_buffer_write_string w filename
  tftp_buffer_write_string w mode

/-- tftp_wrq: encode a WRQ (opcode 2, filename, mode). -/
def tftp_wrq (filename mode : List Nat) : Except Nat (List Nat) := do
  let w ← tftp_buffer_write_uint16 [] 2
  let w ← tftp_buffer_write_string w filename
  tftp_buffer_write_string w mode

/-- tftp_data: encode a DATA packet (opcode 3, block, payload). -/
def tftp_data (block : Nat) (payload : List Nat) : Except Nat (List Nat) := do
  let w ← tftp_buffer_write_uint16 [] 3
  let w ← tftp_buffer_write_uint16 w block
  tftp_buffer_write_data w payload

/-- tftp_ack: encode an ACK packet (opcode 4, block). -/
def tftp_ack (block : Nat) : Except Nat (List Nat) := do
  let w ← tftp_buffer_write_uint16 [] 4
  tftp_buffer_write_uint16 w block

/-- tftp_error: encode an ERROR packet (opcode 5, code, message). -/
def tftp_error (code : Nat) (message : List Nat) : Except Nat (List Nat) := do
  let w ← tftp_buffer_write_uint16 [] 5
  let w ← tftp_buffer_write_uint16 w code
  tftp_buffer_write_string w message

/-- Encoding dispatcher over the packet variant, pairing each case with its
encoder from lib/tftp.c. -/
def tftp_encode : Packet → Except Nat (List Nat)
  | .rrq filename mode => tftp_rrq filename mode
  | .wrq filename mode => tftp_wrq filename mode
  | .data block payload => tftp_data block payload
  | .ack block => tftp_ack block
  | .error code message => tftp_error code message

/-- Well-formedness of a packet as used by the round-trip property: strings
are NUL-free bytes, u16 fields are in range, the DATA payload is at most 512
bytes, and the whole wire form fits the 516-byte buffer. -/
def Packet.wellFormed : Packet → Prop
  | .rrq filename mode =>
      (∀ b ∈ filename, 0 < b ∧ b < 256) ∧ (∀ b ∈ mode, 0 < b ∧ b < 256) ∧
      2 + (filename.length + 1) + (mode.length + 1) ≤ tftpBufferCapacity
  | .wrq filename mode =>
      (∀ b ∈ filename, 0 < b ∧ b < 256) ∧ (∀ b ∈ mode, 0 < b ∧ b < 256) ∧
      2 + (filename.length + 1) + (mode.length + 1) ≤ tftpBufferCapacity
  | .data block payload =>
      block < 65536 ∧ (∀ b ∈ payload, b < 256) ∧ payload.length ≤ TFTP_BLOCK_SIZE
  | .ack block => block < 65536
  | .error code message =>
      code < 65536 ∧ (∀ b ∈ message, 0 < b ∧ b < 256) ∧
      2 + 2 + (message.length + 1) ≤ tftpBufferCapacity

instance : DecidablePred Packet.wellFormed := by
  intro p
  cases p <;> simp only [Packet.wellFormed] <;> infer_instance

/-- The mode string "netascii" the client hard-codes in `tftp_send_wrq`. -/
def netasciiBytes : List Nat := [110, 101, 116, 97, 115, 99, 105, 105]

/-- What one call to `tftp_recv` produces for its caller: a select timeout
(expected carries ETIMEDOUT), a datagram that fails to parse, or a parsed
packet. -/
inductive RecvResult where
  | timeout
  | malformed
  | pkt (p : Packet)
deriving DecidableEq

/-- Observable actions of the client upload loop `tftp_send_wrq`:
datagrams sent, and each `tftp_recv` call annotated with the timeout
argument the source passes to it (`some seconds` for a `struct timeval`,
`none` for the NULL timeout of the data loop). -/
inductive ClientAct where
  | sentWrq (filename mode : List Nat)
  | sentData (block : Nat) (payload : List Nat)
  | waited (timeoutSec : Option Nat)
deriving DecidableEq

/-- How a run of the client loop ends. `assertFailed` models a fired
`assert`; `blockedForever` models a receive with NULL timeout for which no
datagram ever arrives; `outOfStimuli` means the supplied stimulus list ended
while the client was still waiting. -/
inductive ClientOut where
  | finished
  | assertFailed
  | blockedForever
  | outOfStimuli
deriving DecidableEq

/-- The `for (;;)` loop of `tftp_send_wrq`: read up to 512 bytes from the
file, send DATA labelled with the previously received ACK block plus one,
then receive with a NULL timeout and assert the reply is an ACK; stop after
sending a chunk shorter than 512 bytes (checked after the receive).  The
received ACK block is used unchecked as the label base for the next DATA. -/
def tftp_send_wrq_loop (lastAckBlock : Nat) (file : List Nat)
    (stim : List RecvResult) : List ClientAct × ClientOut :=
  let acts0 : List ClientAct :=
    [.sentData ((lastAckBlock + 1) % 65536) (file.take TFTP_BLOCK_SIZE), .waited none]
  match stim with
  | [] => (acts0, .outOfStimuli)
  | .timeout :: _ => (acts0, .blockedForever)
  | .malformed :: _ => (acts0, .assertFailed)
  | .pkt p :: rest =>
    match p with
    | .ack k =>
      if file.length < TFTP_BLOCK_SIZE then (acts0, .finished)
      else
        let next := tftp_send_wrq_loop k (file.drop TFTP_BLOCK_SIZE) rest
        (acts0 ++ next.1, next.2)
    | _ => (acts0, .assertFailed)

/-- tftp_send_wrq of lib/tftp.c: send the WRQ with mode "netascii", receive
the first reply with a five second timeout and assert it is ACK(0) (a
timeout or non-ACK(0) reply fires an assert), then run the data loop. -/
def tftp_send_wrq (filename : List Nat) (file : List Nat)
    (stim : List RecvResult) : List ClientAct × ClientOut :=
  let acts0 : List ClientAct := [.sentWrq filename netasciiBytes, .waited (some 5)]
  match stim with
  | [] => (acts0, .outOfStimuli)
  | .timeout :: _ => (acts0, .assertFailed)
  | .malformed :: _ => (acts0, .assertFailed)
  | .pkt p :: rest =>
    match p with
    | .ack 0 =>
      let next := tftp_send_wrq_loop 0 file rest
      (acts0 ++ next.1, next.2)
    | _ => (acts0, .assertFailed)

/-- Successive `fread` chunks of the client loop: chunks of 512 bytes, the
last one strictly shorter (possibly empty). -/
def fileChunks (f : List Nat) : List (List Nat) :=
  if _h : f.length < TFTP_BLOCK_SIZE then [f]
  else f.take TFTP_BLOCK_SIZE :: fileChunks (f.drop TFTP_BLOCK_SIZE)
termination_by f.length
decreasing_by
  simp only [List.length_drop]
  simp only [TFTP_BLOCK_SIZE] at *
  omega

/-- The DATA payloads occurring in a client action trace, in order. -/
def dataPayloads (acts : List ClientAct) : List (List Nat) :=
  acts.filterMap fun a =>
    match a with
    | .sentData _ payload => some payload
    | _ => none

/-- The timeout arguments of the `tftp_recv` calls in a client action trace,
in order. -/
def waitTimeouts (acts : List ClientAct) : List (Option Nat) :=
  acts.filterMap fun a =>
    match a with
    | .waited t => some t
    | _ => none

/-- Observable actions of the per-session server loop `tftp_handle_wrq` of
lib/tftp.c. -/
inductive ServerAct where
  | sentAck (block : Nat)
  | sentError (code : Nat)
deriving DecidableEq

/-- How a run of `tftp_handle_wrq` ends: normal return, a fired `assert`, or
still waiting for more datagrams than the stimulus list provides. -/
inductive ServerOut where
  | finished
  | assertFailed
  | outOfStimuli
deriving DecidableEq

/-- The receive loop of `tftp_handle_wrq`: receive with a five second
timeout; on timeout re-send the ACK for the current block and continue; a
datagram that is not DATA fires an assert; otherwise the block number is
taken from the packet unchecked, the payload is written (a short `fwrite`
fires an assert, modelled by the per-stimulus `fwrite` success flag), the
ACK is sent, and the loop ends when the payload is shorter than 512 bytes.
There is no duplicate-block check in this variant. -/
def tftp_handle_wrq_loop (block : Nat) (stim : List (RecvResult × Bool)) :
    List ServerAct × ServerOut :=
  match stim with
  | [] => ([], .outOfStimuli)
  | (.timeout, _) :: rest =>
    let next := tftp_handle_wrq_loop block rest
    (.sentAck block :: next.1, next.2)
  | (.malformed, _) :: _ => ([], .assertFailed)
  | (.pkt p, fwriteOk) :: rest =>
    match p with
    | .data b payload =>
      if fwriteOk then
        if payload.length < TFTP_BLOCK_SIZE then ([.sentAck b], .finished)
        else
          let next := tftp_handle_wrq_loop b rest
          (.sentAck b :: next.1, next.2)
      else ([], .assertFailed)
    | _ => ([], .assertFailed)

/-- tftp_handle_wrq of lib/tftp.c: assert the initial datagram is a WRQ; open
the destination file (`fopenOk` is the `fopen` result) — on failure send
ERROR(disk-full = 3) with the `strerror` message and return; otherwise send
ACK(0) and run the receive loop. -/
def tftp_handle_wrq (initial : Packet) (fopenOk : Bool)
    (stim : List (RecvResult × Bool)) : List ServerAct × ServerOut :=
  match initial with
  | .wrq _ _ =>
    if fopenOk then
      let next := tftp_handle_wrq_loop 0 stim
      (.sentAck 0 :: next.1, next.2)
    else ([.sentError 3], .finished)
  | _ => ([], .assertFailed)

/-- tftp_session_t of src/src/daemon.c: the peer's TID, the `FILE *` sink
(here: whether it is open, plus the list of `fwrite` payloads performed on
it), and `last_block`.  `tftp_session_init` zeroes the struct and sets the
tid, so a fresh session has a NULL file and `last_block = 0`. -/
structure Session where
  tid : Nat
  fileOpen : Bool
  writes : List (List Nat)
  lastBlock : Nat
deriving DecidableEq

/-- tftp_session_init: zero the struct, set the tid. -/
def tftp_session_init (tid : Nat) : Session :=
  { tid := tid, fileOpen := false, writes := [], lastBlock := 0 }

/-- tftp_sessions_list_find: linear scan, index of the first session whose
tid matches (the C function returns a pointer to it, or NULL). -/
def tftp_sessions_list_find (sessions : List Session) (tid : Nat) : Option Nat :=
  sessions.findIdx? (fun s => s.tid = tid)

/-- tftp_sessions_list_push: asserts the tid is absent, then appends a fresh
session at `data[size]` (the capacity-doubling realloc does not change the
stored contents). -/
def tftp_sessions_list_push (sessions : List Session) (tid : Nat) : List Session :=
  sessions ++ [tftp_session_init tid]

/-- The scan of `tftp_sessions_list_pop`, with the array split at the scan
index: `acc` holds positions 0..i-1 (already scanned), the argument list
positions i..size-1.  A match at position i decrements the size, swaps the
last element into position i and finalizes the removed one; the loop then
advances past position i, so the swapped-in element joins the scanned
prefix.  A self-swap (match at the last position) just drops the element. -/
def tftp_sessions_list_pop_scan (tid : Nat) (acc : List Session) :
    List Session → List Session
  | [] => acc
  | s :: rest =>
    if s.tid = tid then
      match rest.getLast? with
      | none => acc
      | some lastS => tftp_sessions_list_pop_scan tid (acc ++ [lastS]) rest.dropLast
    else tftp_sessions_list_pop_scan tid (acc ++ [s]) rest
termination_by l => l.length
decreasing_by
  · simp only [List.length_dropLast, List.length_cons]
    omega
  · simp [List.length_cons]

/-- tftp_sessions_list_pop: scan the whole list from index 0. -/
def tftp_sessions_list_pop (tid : Nat) (sessions : List Session) : List Session :=
  tftp_sessions_list_pop_scan tid [] sessions

/-- Per-call filesystem behaviour seen by `tftp_session_advance`: whether
`fopen` succeeds and whether `fwrite` writes the full requested size. -/
structure FsEnv where
  fopenOk : Bool
  fwriteOk : Bool
deriving DecidableEq

/-- Result of `tftp_session_advance` (its `expected_tftp_block_t`), plus the
two abnormal terminations of the C code: a fired `assert` and the
`default: __builtin_unreachable();` of the opcode switch. -/
inductive AdvanceOutcome where
  | ok (block : Nat)
  | errDiskFull
  | assertFailed
  | undefinedBehavior
deriving DecidableEq

/-- tftp_session_advance of src/src/daemon.c, on an already parsed packet
(the function first asserts that `tftp_parse` succeeded).  The session for
the source TID is looked up; when absent, a session is pushed before the
opcode is examined.  WRQ: asserts the session has no open file and
last_block 0, then opens the sink (a failed `fopen` fires the
`assert(session->file)` marked `todo: handle error here`) and returns block
0.  DATA: asserts the file is open; a block equal to `last_block` is a
retransmit and returns without writing; any other block not equal to
`last_block + 1` fires an assert; otherwise `last_block` is updated, the
payload written (a short write pops the session and returns the disk-full
error), and a payload shorter than 512 bytes pops the session.  Any other
opcode reaches `__builtin_unreachable()`.  Returns the outcome and the
session list as mutated up to that point. -/
def tftp_session_advance (sessions : List Session) (tid : Nat) (pkt : Packet)
    (env : FsEnv) : AdvanceOutcome × List Session :=
  let found := tftp_sessions_list_find sessions tid
  let sessions := match found with
    | some _ => sessions
    | none => tftp_sessions_list_push sessions tid
  let i := match found with
    | some i => i
    | none => sessions.length - 1
  match sessions.get? i with
  | none => (.assertFailed, sessions)
  | some s =>
    match pkt with
    | .wrq _ _ =>
      if s.fileOpen then (.assertFailed, sessions)
      else if s.lastBlock ≠ 0 then (.assertFailed, sessions)
      else if env.fopenOk then (.ok 0, sessions.set i { s with fileOpen := true })
      else (.assertFailed, sessions)
    | .data b payload =>
      if ¬ s.fileOpen then (.assertFailed, sessions)
      else if b = s.lastBlock then (.ok b, sessions)
      else if s.lastBlock + 1 ≠ b then (.assertFailed, sessions)
      else
        let sessions := sessions.set i { s with lastBlock := b }
        if ¬ env.fwriteOk then (.errDiskFull, tftp_sessions_list_pop tid sessions)
        else
          let sessions :=
            sessions.set i { s with lastBlock := b, writes := s.writes ++ [payload] }
          if payload.length ≠ TFTP_BLOCK_SIZE then
            (.ok b, tftp_sessions_list_pop tid sessions)
          else (.ok b, sessions)
    | _ => (.undefinedBehavior, sessions)

/-- Result of one iteration of the daemon's `tftp_transfer`. The
`ackSent`/`errorSent` split mirrors the `if (block.has_value)` at the end of
the function; `errorSent` is unreachable in the source because the line
`assert(block.has_value)` precedes the branch, so a failed advance aborts. -/
inductive TransferResult where
  | ackSent (block : Nat)
  | errorSent (code : Nat)
  | assertFailed
  | undefinedBehavior
deriving DecidableEq

/-- tftp_transfer of src/src/daemon.c: receive one datagram, advance the
session for its source, then `assert(block.has_value)` — so a
disk-full advance outcome aborts the process before the `tftp_send_error`
branch can run — and send the ACK for the returned block otherwise. -/
def tftp_transfer (sessions : List Session) (tid : Nat) (pkt : Packet)
    (env : FsEnv) : TransferResult × List Session :=
  match tftp_session_advance sessions tid pkt env with
  | (.ok b, sessions) => (.ackSent b, sessions)
  | (.errDiskFull, sessions) => (.assertFailed, sessions)
  | (.assertFailed, sessions) => (.assertFailed, sessions)
  | (.undefinedBehavior, sessions) => (.undefinedBehavior, sessions)

/-- The TIDs stored in a session list, in order. -/
def sessionTids (l : List Session) : List Nat :=
  l.map Session.tid

/-- Session lists reachable from the empty table by the daemon's operations:
a push whose precondition (the asserted absence of the tid) holds, any pop,
and the session-list component of any `tftp_session_advance` call. -/
inductive SessionsReachable : List Session → Prop
  | nil : SessionsReachable []
  | push (l : List Session) (tid : Nat) : SessionsReachable l →
      tftp_sessions_list_find l tid = none →
      SessionsReachable (tftp_sessions_list_push l tid)
  | pop (l : List Session) (tid : Nat) : SessionsReachable l →
      SessionsReachable (tftp_sessions_list_pop tid l)
  | advance (l : List Session) (tid : Nat) (pkt : Packet) (env : FsEnv) :
      SessionsReachable l →
      SessionsReachable (tftp_session_advance l tid pkt env).2

/-! Helper lemmas about the codec. -/

theorem findIdx_zero_append (s rest : List Nat) (hs : ∀ b ∈ s, b ≠ 0) (i : Nat) :
    List.findIdx? (fun b => b = 0) (s ++ 0 :: rest) i = some (i + s.length) := by
  induction s generalizing i with
  | nil => simp [List.findIdx?_cons]
  | cons a t ih =>
    have ha : a ≠ 0 := hs a (by simp)
    have ht : ∀ b ∈ t, b ≠ 0 := fun b hb => hs b (by simp [hb])
    simp only [List.cons_append, List.findIdx?_cons, decide_eq_true_eq, ha, if_false,
      ih ht (i + 1), List.length_cons]
    congr 1
    omega

theorem read_string_append (s rest : List Nat) (hs : ∀ b ∈ s, b ≠ 0) :
    tftp_buffer_read_string (s ++ 0 :: rest) = .ok (s, rest) := by
  unfold tftp_buffer_read_string
  rw [show (s ++ 0 :: rest).findIdx? (fun b => b = 0) = some s.length from by
    simpa using findIdx_zero_append s rest hs 0]
  simp only [List.take_left]
  rw [List.append_cons, show s.length + 1 = (s ++ [0]).length by simp, List.drop_left]

theorem u16_bytes_roundtrip (v : Nat) (h : v < 65536) :
    v / 256 % 256 * 256 + v % 256 = v := by
  omega

theorem tftp_buffer_write_data_ok (w d : List Nat)
    (h : d.length ≤ tftpBufferCapacity - w.length) :
    tftp_buffer_write_data w d = .ok (w ++ d) := by
  unfold tftp_buffer_write_data
  rw [if_neg (by omega)]

theorem tftp_buffer_write_string_ok (w s : List Nat)
    (h : s.length + 1 ≤ tftpBufferCapacity - w.length) :
    tftp_buffer_write_string w s = .ok (w ++ (s ++ [0])) := by
  unfold tftp_buffer_write_string
  exact tftp_buffer_write_data_ok w (s ++ [0]) (by simpa using h)

/-- CLAIM C3: codec round-trip.  For every well-formed packet (NUL-free
strings, in-range u16 fields, DATA payload at most 512 bytes, wire form at
most 516 bytes), encoding succeeds and parsing the encoded bytes at the
returned size yields the same packet. -/
theorem tftp_roundtrip (P : Packet) (h : P.wellFormed) :
    ∃ bytes, tftp_encode P = .ok bytes ∧ bytes.length ≤ tftpBufferCapacity ∧
      tftp_parse bytes bytes.length = .ok P := by
  cases P with
  | rrq filename mode =>
    obtain ⟨hf, hm, hlen⟩ := h
    simp only [tftpBufferCapacity, TFTP_BLOCK_SIZE] at hlen
    have hf0 : ∀ b ∈ filename, b ≠ 0 := fun b hb => Nat.pos_iff_ne_zero.mp (hf b hb).1
    have hm0 : ∀ b ∈ mode, b ≠ 0 := fun b hb => Nat.pos_iff_ne_zero.mp (hm b hb).1
    refine ⟨[0, 1] ++ (filename ++ [0]) ++ (mode ++ [0]), ?_, ?_, ?_⟩
    · have w1 : tftp_buffer_write_uint16 [] 1 = .ok [0, 1] := rfl
      have w2 := tftp_buffer_write_string_ok [0, 1] filename
        (by simp [tftpBufferCapacity, TFTP_BLOCK_SIZE]; omega)
      have w3 := tftp_buffer_write_string_ok ([0, 1] ++ (filename ++ [0])) mode
        (by simp [tftpBufferCapacity, TFTP_BLOCK_SIZE]; omega)
      simp at w2 w3
      simp [tftp_encode, tftp_rrq, bind, Except.bind, w1, w2, w3]
    · simp only [List.length_append, List.length_cons, List.length_nil,
        tftpBufferCapacity, TFTP_BLOCK_SIZE]
      omega
    · have e1 := read_string_append filename (mode ++ 0 :: []) hf0
      have e2 := read_string_append mode [] hm0
      rw [show [0, 1] ++ (filename ++ [0]) ++ (mode ++ [0]) =
        0 :: 1 :: (filename ++ 0 :: (mode ++ 0 :: [])) by simp]
      simp only [tftp_parse, List.take_length]
      simp [tftp_buffer_read_uint16, e1, e2]
  | wrq filename mode =>
    obtain ⟨hf, hm, hlen⟩ := h
    simp only [tftpBufferCapacity, TFTP_BLOCK_SIZE] at hlen
    have hf0 : ∀ b ∈ filename, b ≠ 0 := fun b hb => Nat.pos_iff_ne_zero.mp (hf b hb).1
    have hm0 : ∀ b ∈ mode, b ≠ 0 := fun b hb => Nat.pos_iff_ne_zero.mp (hm b hb).1
    refine ⟨[0, 2] ++ (filename ++ [0]) ++ (mode ++ [0]), ?_, ?_, ?_⟩
    · have w1 : tftp_buffer_write_uint16 [] 2 = .ok [0, 2] := rfl
      have w2 := tftp_buffer_write_string_ok [0, 2] filename
        (by simp [tftpBufferCapacity, TFTP_BLOCK_SIZE]; omega)
      have w3 := tftp_buffer_write_string_ok ([0, 2] ++ (filename ++ [0])) mode
        (by simp [tftpBufferCapacity, TFTP_BLOCK_SIZE]; omega)
      simp at w2 w3
      simp [tftp_encode, tftp_wrq, bind, Except.bind, w1, w2, w3]
    · simp only [List.length_append, List.length_cons, List.length_nil,
        tftpBufferCapacity, TFTP_BLOCK_SIZE]
      omega
    · have e1 := read_string_append filename (mode ++ 0 :: []) hf0
      have e2 := read_string_append mode [] hm0
      rw [show [0, 2] ++ (filename ++ [0]) ++ (mode ++ [0]) =
        0 :: 2 :: (filename ++ 0 :: (mode ++ 0 :: [])) by simp]
      simp only [tftp_parse, List.take_length]
      simp [tftp_buffer_read_uint16, e1, e2]
  | data block payload =>
    obtain ⟨hb, hp, hlen⟩ := h
    simp only [TFTP_BLOCK_SIZE] at hlen
    refine ⟨[0, 3, block / 256 % 256, block % 256] ++ payload, ?_, ?_, ?_⟩
    · have w1 : tftp_buffer_write_uint16 [] 3 = .ok [0, 3] := rfl
      have w2 : tftp_buffer_write_uint16 [0, 3] block =
          .ok [0, 3, block / 256 % 256, block % 256] := by
        unfold tftp_buffer_write_uint16
        rw [tftp_buffer_write_data_ok [0, 3] _ (by simp [tftpBufferCapacity, TFTP_BLOCK_SIZE])]
        rfl
      have w3 := tftp_buffer_write_data_ok [0, 3, block / 256 % 256, block % 256] payload
        (by simp [tftpBufferCapacity, TFTP_BLOCK_SIZE]; omega)
      simp [tftp_encode, tftp_data, bind, Except.bind, w1, w2, w3]
    · simp only [List.length_append, List.length_cons, List.length_nil,
        tftpBufferCapacity, TFTP_BLOCK_SIZE]
      omega
    · rw [show [0, 3, block / 256 % 256, block % 256] ++ payload =
        0 :: 3 :: block / 256 % 256 :: block % 256 :: payload by simp]
      simp only [tftp_parse, List.take_length]
      simp [tftp_buffer_read_uint16, u16_bytes_roundtrip block hb]
  | ack block =>
    have hb : block < 65536 := h
    refine ⟨[0, 4, block / 256 % 256, block % 256], ?_, ?_, ?_⟩
    · have w1 : tftp_buffer_write_uint16 [] 4 = .ok [0, 4] := rfl
      have w2 : tftp_buffer_write_uint16 [0, 4] block =
          .ok [0, 4, block / 256 % 256, block % 256] := by
        unfold tftp_buffer_write_uint16
        rw [tftp_buffer_write_data_ok [0, 4] _ (by simp [tftpBufferCapacity, TFTP_BLOCK_SIZE])]
        rfl
      simp [tftp_encode, tftp_ack, bind, Except.bind, w1, w2]
    · simp [tftpBufferCapacity, TFTP_BLOCK_SIZE]
    · simp only [tftp_parse, List.take_length]
      simp [tftp_buffer_read_uint16, u16_bytes_roundtrip block hb]
  | error code message =>
    obtain ⟨hc, hm, hlen⟩ := h
    simp only [tftpBufferCapacity, TFTP_BLOCK_SIZE] at hlen
    have hm0 : ∀ b ∈ message, b ≠ 0 := fun b hb => Nat.pos_iff_ne_zero.mp (hm b hb).1
    refine ⟨[0, 5, code / 256 % 256, code % 256] ++ (message ++ [0]), ?_, ?_, ?_⟩
    · have w1 : tftp_buffer_write_uint16 [] 5 = .ok [0, 5] := rfl
      have w2 : tftp_buffer_write_uint16 [0, 5] code =
          .ok [0, 5, code / 256 % 256, code % 256] := by
        unfold tftp_buffer_write_uint16
        rw [tftp_buffer_write_data_ok [0, 5] _ (by simp [tftpBufferCapacity, TFTP_BLOCK_SIZE])]
        rfl
      have w3 := tftp_buffer_write_string_ok [0, 5, code / 256 % 256, code % 256] message
        (by simp [tftpBufferCapacity, TFTP_BLOCK_SIZE]; omega)
      simp at w3
      simp [tftp_encode, tftp_error, bind, Except.bind, w1, w2, w3]
    · simp only [List.length_append, List.length_cons, List.length_nil,
        tftpBufferCapacity, TFTP_BLOCK_SIZE]
      omega
    · have e1 := read_string_append message [] hm0
      rw [show [0, 5, code / 256 % 256, code % 256] ++ (message ++ [0]) =
        0 :: 5 :: code / 256 % 256 :: code % 256 :: (message ++ 0 :: []) by simp]
      simp only [tftp_parse, List.take_length]
      simp [tftp_buffer_read_uint16, u16_bytes_roundtrip code hc, e1]

/-- Witness for C3 at the specification example of §8: the WRQ for "a.txt"
with mode "octet" encodes and decodes back to itself. -/
theorem tftp_roundtrip_witness :
    ∃ bytes,
      tftp_encode (.wrq [97, 46, 116, 120, 116] [111, 99, 116, 101, 116]) = .ok bytes ∧
      bytes.length ≤ tftpBufferCapacity ∧
      tftp_parse bytes bytes.length =
        .ok (.wrq [97, 46, 116, 120, 116] [111, 99, 116, 101, 116]) :=
  tftp_roundtrip (.wrq [97, 46, 116, 120, 116] [111, 99, 116, 101, 116]) (by decide)

/-- CLAIM C1 (code evaluation): the 2-byte datagrams `00 06` and `00 00`
carry opcodes outside 1..5, and `tftp_parse` reaches
`default: __builtin_unreachable();` on them — undefined behaviour — instead
of returning a MalformedError as the specification requires.  The other
decode rules of the claim do hold: a buffer shorter than two bytes and the
truncated WRQ of spec §8 scenario 5 both yield MalformedError. -/
theorem tftp_parse_bad_opcode_undefined :
    tftp_parse [0, 6] 2 = .undefinedBehavior ∧
    tftp_parse [0, 0] 2 = .undefinedBehavior ∧
    tftp_parse [0] 1 = .err EMSGSIZE ∧
    tftp_parse [] 0 = .err EMSGSIZE ∧
    tftp_parse [0, 2, 97, 46, 116, 120, 116, 0, 111, 99, 116, 101, 116] 13 = .err EBADMSG := by
  decide

/-! Helper lemmas about the client upload loop. -/

theorem waitTimeouts_append (a b : List ClientAct) :
    waitTimeouts (a ++ b) = waitTimeouts a ++ waitTimeouts b := by
  simp [waitTimeouts, List.filterMap_append]

theorem dataPayloads_append (a b : List ClientAct) :
    dataPayloads (a ++ b) = dataPayloads a ++ dataPayloads b := by
  simp [dataPayloads, List.filterMap_append]

theorem tftp_send_wrq_loop_waits_none (stim : List RecvResult) :
    ∀ (f : List Nat) (b : Nat), ∀ t ∈ waitTimeouts (tftp_send_wrq_loop b f stim).1, t = none := by
  induction stim with
  | nil =>
    intro f b t ht
    simp [tftp_send_wrq_loop, waitTimeouts, dataPayloads] at ht
    exact ht
  | cons r rest ih =>
    intro f b t ht
    match r with
    | .timeout => simp [tftp_send_wrq_loop, waitTimeouts] at ht; exact ht
    | .malformed => simp [tftp_send_wrq_loop, waitTimeouts] at ht; exact ht
    | .pkt p =>
      match p with
      | .ack k =>
        by_cases hshort : f.length < TFTP_BLOCK_SIZE
        · simp [tftp_send_wrq_loop, hshort, waitTimeouts] at ht
          exact ht
        · simp only [tftp_send_wrq_loop, hshort, if_false, waitTimeouts_append] at ht
          rcases List.mem_append.mp ht with h1 | h2
          · simp [waitTimeouts] at h1; exact h1
          · exact ih (f.drop TFTP_BLOCK_SIZE) k t h2
      | .rrq fn md => simp [tftp_send_wrq_loop, waitTimeouts] at ht; exact ht
      | .wrq fn md => simp [tftp_send_wrq_loop, waitTimeouts] at ht; exact ht
      | .data bl pl => simp [tftp_send_wrq_loop, waitTimeouts] at ht; exact ht
      | .error c m => simp [tftp_send_wrq_loop, waitTimeouts] at ht; exact ht

/-- CLAIM C4 (counterexample): in the client upload of the empty file, the
wait for ACK(1) is a `tftp_recv` call with a NULL timeout — no 5-second
budget — so the claim "each wait has a 5-second budget" is false of the
code; and when the single wait that does have the 5-second budget (the wait
for ACK(0)) times out, the client aborts on `assert(packet.has_value)`
without retransmitting anything. -/
theorem client_timeout_counterexample :
    ClientAct.waited none ∈
      (tftp_send_wrq [97] [] [.pkt (.ack 0), .pkt (.ack 1)]).1 ∧
    (tftp_send_wrq [97] [] [.timeout]).2 = .assertFailed ∧
    dataPayloads (tftp_send_wrq [97] [] [.timeout]).1 = [] := by
  decide

/-- CLAIM C4 (amended): only the initial wait for ACK(0) after the WRQ
passes a 5-second timeout to `tftp_recv`, and its expiry makes the client
abort on a failed assertion rather than retransmit; every wait of the
DATA/ACK loop passes a NULL timeout, and if no datagram arrives at such a
wait the client blocks forever.  Retransmission never occurs. -/
theorem client_wait_budgets (filename f : List Nat) (stim : List RecvResult) (b : Nat) :
    (∃ n, waitTimeouts (tftp_send_wrq filename f stim).1 = some 5 :: List.replicate n none) ∧
    (tftp_send_wrq filename f (.timeout :: stim)).2 = .assertFailed ∧
    (tftp_send_wrq_loop b f (.timeout :: stim)).2 = .blockedForever := by
  refine ⟨?_, by simp [tftp_send_wrq], by simp [tftp_send_wrq_loop]⟩
  have head : ∀ acts, waitTimeouts ([ClientAct.sentWrq filename netasciiBytes,
      ClientAct.waited (some 5)] ++ acts) = some 5 :: waitTimeouts acts := by
    intro acts
    simp [waitTimeouts_append, waitTimeouts]
  have tail_none : ∀ acts, (∀ t ∈ waitTimeouts acts, t = none) →
      ∃ n, waitTimeouts acts = List.replicate n none := by
    intro acts h
    exact ⟨(waitTimeouts acts).length, List.eq_replicate_iff.mpr ⟨rfl, h⟩⟩
  match stim with
  | [] => exact ⟨0, by simp [tftp_send_wrq, waitTimeouts]⟩
  | .timeout :: rest => exact ⟨0, by simp [tftp_send_wrq, waitTimeouts]⟩
  | .malformed :: rest => exact ⟨0, by simp [tftp_send_wrq, waitTimeouts]⟩
  | .pkt p :: rest =>
    match p with
    | .ack 0 =>
      obtain ⟨n, hn⟩ := tail_none (tftp_send_wrq_loop 0 f rest).1
        (tftp_send_wrq_loop_waits_none rest f 0)
      refine ⟨n, ?_⟩
      show waitTimeouts ([ClientAct.sentWrq filename netasciiBytes,
        ClientAct.waited (some 5)] ++ (tftp_send_wrq_loop 0 f rest).1) = _
      rw [head, hn]
    | .ack (k+1) => exact ⟨0, by simp [tftp_send_wrq, waitTimeouts]⟩
    | .rrq fn md => exact ⟨0, by simp [tftp_send_wrq, waitTimeouts]⟩
    | .wrq fn md => exact ⟨0, by simp [tftp_send_wrq, waitTimeouts]⟩
    | .data bl pl => exact ⟨0, by simp [tftp_send_wrq, waitTimeouts]⟩
    | .error c m => exact ⟨0, by simp [tftp_send_wrq, waitTimeouts]⟩

set_option maxRecDepth 8192 in
/-- CLAIM C7 (counterexample): uploading a 513-byte file, the client in
AWAIT_ACK(1) that receives the duplicate ACK(0) does not retransmit
DATA(1, first chunk): it reads the next chunk and sends it labelled
DATA(1, [1]) — same block number, different payload — and completes without
entering any failed state; likewise an ACK far ahead of the awaited block
(ACK(7)) is not treated as a protocol violation: the client continues and
labels the next chunk DATA(8). -/
theorem client_stale_ack_counterexample :
    ((tftp_send_wrq [97] (List.replicate 512 0 ++ [1])
        [.pkt (.ack 0), .pkt (.ack 0), .pkt (.ack 1)]).1 =
      [.sentWrq [97] netasciiBytes, .waited (some 5),
       .sentData 1 (List.replicate 512 0), .waited none,
       .sentData 1 [1], .waited none] ∧
     (tftp_send_wrq [97] (List.replicate 512 0 ++ [1])
        [.pkt (.ack 0), .pkt (.ack 0), .pkt (.ack 1)]).2 = .finished) ∧
    ((tftp_send_wrq [97] (List.replicate 512 0 ++ [1])
        [.pkt (.ack 0), .pkt (.ack 7), .pkt (.ack 1)]).1 =
      [.sentWrq [97] netasciiBytes, .waited (some 5),
       .sentData 1 (List.replicate 512 0), .waited none,
       .sentData 8 [1], .waited none] ∧
     (tftp_send_wrq [97] (List.replicate 512 0 ++ [1])
        [.pkt (.ack 0), .pkt (.ack 7), .pkt (.ack 1)]).2 = .finished) := by
  decide

/-- CLAIM C7 (amended): the client never compares the received ACK's block
number with the block it awaits.  On any ACK(k) it proceeds: if the chunk
just sent was short the transfer finishes, otherwise the loop continues
with k as the new acknowledged block, so the next chunk of the file — not a
retransmission — is sent as DATA((k+1) mod 2^16).  In particular a
duplicate ACK(b-1) relabels fresh data as block b, and an ACK ahead of b
does not fail the transfer. -/
theorem client_ack_unchecked (lastAck k : Nat) (f : List Nat) (stim : List RecvResult) :
    tftp_send_wrq_loop lastAck f (.pkt (.ack k) :: stim) =
      (if f.length < TFTP_BLOCK_SIZE then
        ([.sentData ((lastAck + 1) % 65536) (f.take TFTP_BLOCK_SIZE), .waited none],
          .finished)
      else
        ([.sentData ((lastAck + 1) % 65536) (f.take TFTP_BLOCK_SIZE), .waited none] ++
            (tftp_send_wrq_loop k (f.drop TFTP_BLOCK_SIZE) stim).1,
          (tftp_send_wrq_loop k (f.drop TFTP_BLOCK_SIZE) stim).2)) := by
  by_cases hshort : f.length < TFTP_BLOCK_SIZE <;>
    simp [tftp_send_wrq_loop, hshort]

/-! Helper lemmas about `fileChunks` and the happy-path client run. -/

theorem fileChunks_short (f : List Nat) (h : f.length < TFTP_BLOCK_SIZE) :
    fileChunks f = [f] := by
  rw [fileChunks]
  exact dif_pos h

theorem fileChunks_long (f : List Nat) (h : ¬ f.length < TFTP_BLOCK_SIZE) :
    fileChunks f = f.take TFTP_BLOCK_SIZE :: fileChunks (f.drop TFTP_BLOCK_SIZE) := by
  rw [fileChunks]
  exact dif_neg h

theorem fileChunks_ne_nil (f : List Nat) : fileChunks f ≠ [] := by
  induction f using fileChunks.induct with
  | case1 f h => rw [fileChunks_short f h]; simp
  | case2 f h ih => rw [fileChunks_long f h]; simp

theorem fileChunks_getLast (f : List Nat) :
    ∃ lastChunk, (fileChunks f).getLast? = some lastChunk ∧
      lastChunk.length < TFTP_BLOCK_SIZE ∧
      (TFTP_BLOCK_SIZE ∣ f.length → lastChunk = []) ∧
      (fileChunks f).length = f.length / TFTP_BLOCK_SIZE + 1 := by
  induction f using fileChunks.induct with
  | case1 f h =>
    refine ⟨f, by rw [fileChunks_short f h]; rfl, h, ?_, ?_⟩
    · intro hdvd
      rw [← List.length_eq_zero]
      simp only [TFTP_BLOCK_SIZE] at h hdvd
      omega
    · rw [fileChunks_short f h]
      simp only [List.length_cons, List.length_nil, TFTP_BLOCK_SIZE] at *
      omega
  | case2 f h ih =>
    obtain ⟨c, hc, hclen, hcdvd, hccount⟩ := ih
    refine ⟨c, ?_, hclen, ?_, ?_⟩
    · rw [fileChunks_long f h]
      cases he : fileChunks (f.drop TFTP_BLOCK_SIZE) with
      | nil => exact absurd he (fileChunks_ne_nil _)
      | cons b t =>
        rw [List.getLast?_cons_cons]
        rw [he] at hc
        exact hc
    · intro hdvd
      refine hcdvd ?_
      simp only [List.length_drop, TFTP_BLOCK_SIZE] at *
      omega
    · rw [fileChunks_long f h]
      simp only [List.length_cons, List.length_drop, TFTP_BLOCK_SIZE] at *
      omega

theorem send_loop_happy (stim : List RecvResult) :
    ∀ (f : List Nat) (b : Nat),
      (∀ r ∈ stim, ∃ k, r = RecvResult.pkt (.ack k)) →
      (fileChunks f).length ≤ stim.length →
      dataPayloads (tftp_send_wrq_loop b f stim).1 = fileChunks f ∧
      (tftp_send_wrq_loop b f stim).2 = .finished := by
  induction stim with
  | nil =>
    intro f b _ hlen
    have := fileChunks_ne_nil f
    simp only [List.length_nil, Nat.le_zero, List.length_eq_zero] at hlen
    exact absurd hlen this
  | cons r rest ih =>
    intro f b hacks hlen
    obtain ⟨k, hk⟩ := hacks r (by simp)
    subst hk
    have hrest : ∀ r ∈ rest, ∃ k, r = RecvResult.pkt (.ack k) :=
      fun r hr => hacks r (by simp [hr])
    by_cases hshort : f.length < TFTP_BLOCK_SIZE
    · constructor
      · simp [tftp_send_wrq_loop, hshort, dataPayloads,
          fileChunks_short f hshort, List.take_of_length_le (Nat.le_of_lt hshort)]
      · simp [tftp_send_wrq_loop, hshort]
    · have hlen' : (fileChunks (f.drop TFTP_BLOCK_SIZE)).length ≤ rest.length := by
        rw [fileChunks_long f hshort] at hlen
        simpa using hlen
      obtain ⟨ih1, ih2⟩ := ih (f.drop TFTP_BLOCK_SIZE) k hrest hlen'
      have estep : tftp_send_wrq_loop b f (RecvResult.pkt (Packet.ack k) :: rest) =
          ([.sentData ((b + 1) % 65536) (f.take TFTP_BLOCK_SIZE), .waited none] ++
              (tftp_send_wrq_loop k (f.drop TFTP_BLOCK_SIZE) rest).1,
            (tftp_send_wrq_loop k (f.drop TFTP_BLOCK_SIZE) rest).2) := by
        simp [tftp_send_wrq_loop, hshort]
      rw [estep]
      constructor
      · rw [dataPayloads_append, fileChunks_long f hshort, ih1]
        simp [dataPayloads]
      · exact ih2

/-- CLAIM C8: client termination signalling.  For every input stream and a
correctly acknowledging server (the first reply is ACK(0) and all later
replies are ACKs, enough of them to cover every chunk), the upload
finishes, the DATA payloads sent are exactly the successive 512-byte reads
of the file, the final DATA payload is strictly shorter than 512 bytes, and
when the file length is an exact multiple of 512 (including the empty file)
the final DATA payload is empty and the number of DATA packets is
length/512 + 1 — a trailing zero-byte DATA after the last full block. -/
theorem client_termination (filename f : List Nat) (rest : List RecvResult)
    (hacks : ∀ r ∈ rest, ∃ k, r = RecvResult.pkt (.ack k))
    (hlen : (fileChunks f).length ≤ rest.length) :
    (tftp_send_wrq filename f (.pkt (.ack 0) :: rest)).2 = .finished ∧
    dataPayloads (tftp_send_wrq filename f (.pkt (.ack 0) :: rest)).1 = fileChunks f ∧
    ∃ lastPayload,
      (dataPayloads (tftp_send_wrq filename f (.pkt (.ack 0) :: rest)).1).getLast? =
        some lastPayload ∧
      lastPayload.length < TFTP_BLOCK_SIZE ∧
      (TFTP_BLOCK_SIZE ∣ f.length → lastPayload = [] ∧
        (dataPayloads (tftp_send_wrq filename f (.pkt (.ack 0) :: rest)).1).length =
          f.length / TFTP_BLOCK_SIZE + 1) := by
  obtain ⟨h1, h2⟩ := send_loop_happy rest f 0 hacks hlen
  have etrace : dataPayloads (tftp_send_wrq filename f (.pkt (.ack 0) :: rest)).1 =
      fileChunks f := by
    show dataPayloads ([ClientAct.sentWrq filename netasciiBytes,
      ClientAct.waited (some 5)] ++ (tftp_send_wrq_loop 0 f rest).1) = _
    rw [dataPayloads_append, h1]
    simp [dataPayloads]
  have eout : (tftp_send_wrq filename f (.pkt (.ack 0) :: rest)).2 =
      (tftp_send_wrq_loop 0 f rest).2 := rfl
  obtain ⟨c, hc, hclen, hcdvd, hccount⟩ := fileChunks_getLast f
  refine ⟨by rw [eout]; exact h2, etrace, c, by rw [etrace]; exact hc, hclen,
    fun hdvd => ⟨hcdvd hdvd, by rw [etrace, hccount]⟩⟩

/-- Witness for C8 at the empty file: the upload of a zero-length stream
sends exactly one DATA, with empty payload, and finishes. -/
theorem client_termination_witness :
    (tftp_send_wrq [97] [] [.pkt (.ack 0), .pkt (.ack 1)]).2 = .finished ∧
    dataPayloads (tftp_send_wrq [97] [] [.pkt (.ack 0), .pkt (.ack 1)]).1 = fileChunks [] ∧
    ∃ lastPayload,
      (dataPayloads (tftp_send_wrq [97] [] [.pkt (.ack 0), .pkt (.ack 1)]).1).getLast? =
        some lastPayload ∧
      lastPayload.length < TFTP_BLOCK_SIZE ∧
      (TFTP_BLOCK_SIZE ∣ ([] : List Nat).length → lastPayload = [] ∧
        (dataPayloads (tftp_send_wrq [97] [] [.pkt (.ack 0), .pkt (.ack 1)]).1).length =
          ([] : List Nat).length / TFTP_BLOCK_SIZE + 1) :=
  client_termination [97] [] [.pkt (.ack 1)]
    (fun r hr => ⟨1, by simpa using hr⟩)
    (by rw [fileChunks_short [] (by simp [TFTP_BLOCK_SIZE])]; simp)

/-! Helper lemmas and theorems about the daemon's session machine. -/

/-- CLAIM C2: duplicate-DATA idempotence of the server receive state
machine.  When the session for `tid` has its file open and last wrote block
`s.lastBlock`, receiving DATA(s.lastBlock) again performs no file write and
leaves the session list unchanged, and the transfer loop replies with
ACK(s.lastBlock); by contrast the first arrival of the next block
(s.lastBlock + 1, full 512-byte payload, successful write) appends exactly
one write of that payload. -/
theorem duplicate_data_idempotent (l : List Session) (i tid : Nat) (s : Session)
    (payload payload2 : List Nat) (env : FsEnv)
    (hfind : tftp_sessions_list_find l tid = some i)
    (hget : l.get? i = some s)
    (hopen : s.fileOpen = true) :
    tftp_session_advance l tid (.data s.lastBlock payload) env = (.ok s.lastBlock, l) ∧
    tftp_transfer l tid (.data s.lastBlock payload) env = (.ackSent s.lastBlock, l) ∧
    (payload2.length = TFTP_BLOCK_SIZE → env.fwriteOk = true →
      tftp_session_advance l tid (.data (s.lastBlock + 1) payload2) env =
        (.ok (s.lastBlock + 1),
          l.set i { s with lastBlock := s.lastBlock + 1,
                           writes := s.writes ++ [payload2] })) := by
  have hget' : l[i]? = some s := by
    rw [← List.get?_eq_getElem?]
    exact hget
  have hdup : tftp_session_advance l tid (.data s.lastBlock payload) env =
      (.ok s.lastBlock, l) := by
    simp [tftp_session_advance, hfind, hget', hopen]
  refine ⟨hdup, ?_, ?_⟩
  · simp [tftp_transfer, hdup]
  · intro hp2 hw
    simp [tftp_session_advance, hfind, hget', hopen, hp2, hw]

set_option maxRecDepth 8192 in
/-- Witness for C2: a concrete one-session table, a duplicate DATA(1) and a
fresh DATA(2). -/
theorem duplicate_data_idempotent_witness :
    tftp_session_advance [⟨5, true, [[1]], 1⟩] 5 (.data 1 [9]) ⟨true, true⟩ =
      (.ok 1, [⟨5, true, [[1]], 1⟩]) ∧
    tftp_transfer [⟨5, true, [[1]], 1⟩] 5 (.data 1 [9]) ⟨true, true⟩ =
      (.ackSent 1, [⟨5, true, [[1]], 1⟩]) ∧
    tftp_session_advance [⟨5, true, [[1]], 1⟩] 5
        (.data 2 (List.replicate 512 2)) ⟨true, true⟩ =
      (.ok 2, [⟨5, true, [[1], List.replicate 512 2], 2⟩]) :=
  have h := duplicate_data_idempotent [⟨5, true, [[1]], 1⟩] 0 5 ⟨5, true, [[1]], 1⟩
    [9] (List.replicate 512 2) ⟨true, true⟩ (by decide) (by decide) rfl
  ⟨h.1, h.2.1, by simpa using h.2.2 (by simp [TFTP_BLOCK_SIZE]) rfl⟩

/-- CLAIM C5 (code evaluation): a session awaiting DATA (file open,
last_block = 2) that receives an unexpected opcode (ACK or ERROR) drives
`tftp_session_advance` into `default: __builtin_unreachable();`, and a DATA
whose block is neither 2 nor 3 fires the assert
`session->last_block + 1 == packet.data.block` — in no case is an
ERROR(illegal-op) produced or the session closed. -/
theorem protocol_violation_no_error_reply :
    tftp_session_advance [⟨7, true, [], 2⟩] 7 (.ack 1) ⟨true, true⟩ =
      (.undefinedBehavior, [⟨7, true, [], 2⟩]) ∧
    tftp_session_advance [⟨7, true, [], 2⟩] 7 (.error 0 []) ⟨true, true⟩ =
      (.undefinedBehavior, [⟨7, true, [], 2⟩]) ∧
    tftp_session_advance [⟨7, true, [], 2⟩] 7 (.data 5 [1]) ⟨true, true⟩ =
      (.assertFailed, [⟨7, true, [], 2⟩]) ∧
    tftp_transfer [⟨7, true, [], 2⟩] 7 (.data 5 [1]) ⟨true, true⟩ =
      (.assertFailed, [⟨7, true, [], 2⟩]) := by
  refine ⟨?_, ?_, ?_, ?_⟩ <;> decide

/-- CLAIM C6 (code evaluation): on a short `fwrite` (disk full) the daemon's
`tftp_session_advance` does compute the disk-full error value and pops the
session, but `tftp_transfer` aborts on `assert(block.has_value)` before its
`tftp_send_error` branch can run, so no ERROR datagram is sent and the
whole process (all sessions) dies; a failed `fopen` in the WRQ case fires
`assert(session->file)` (the `todo: handle error here` line) instead of
sending ERROR(disk-full).  Only the unused lib/tftp.c variant
`tftp_handle_wrq` sends ERROR(disk-full = 3) on open failure, and its own
write failure fires the `assert(fwrite(...) == size)`. -/
theorem disk_full_aborts_process :
    tftp_session_advance [⟨7, true, [], 0⟩] 7 (.data 1 [42]) ⟨true, false⟩ =
      (.errDiskFull, []) ∧
    tftp_transfer [⟨7, true, [], 0⟩] 7 (.data 1 [42]) ⟨true, false⟩ =
      (.assertFailed, []) ∧
    tftp_session_advance [] 7 (.wrq [97] [111]) ⟨false, true⟩ =
      (.assertFailed, [⟨7, false, [], 0⟩]) ∧
    tftp_handle_wrq (.wrq [97] [111]) false [] = ([.sentError 3], .finished) ∧
    tftp_handle_wrq (.wrq [97] [111]) true [(.pkt (.data 1 [1]), false)] =
      ([.sentAck 0], .assertFailed) := by
  have hpop : tftp_sessions_list_pop 7 [(⟨7, true, [], 1⟩ : Session)] = [] := by
    rw [tftp_sessions_list_pop, tftp_sessions_list_pop_scan]
    simp
  refine ⟨?_, ?_, ?_, ?_, ?_⟩
  · simp [tftp_session_advance, tftp_sessions_list_find, List.findIdx?_cons, hpop]
  · simp only [tftp_transfer]
    rw [show tftp_session_advance [⟨7, true, [], 0⟩] 7 (.data 1 [42]) ⟨true, false⟩ =
      (.errDiskFull, []) from by
        simp [tftp_session_advance, tftp_sessions_list_find, List.findIdx?_cons, hpop]]
  · decide
  · decide
  · decide

theorem sessionTids_append (a b : List Session) :
    sessionTids (a ++ b) = sessionTids a ++ sessionTids b := by
  simp [sessionTids]

theorem sessionTids_cons (s : Session) (l : List Session) :
    sessionTids (s :: l) = s.tid :: sessionTids l := by
  simp [sessionTids]

theorem pop_scan_mem (tid : Nat) :
    ∀ (acc l : List Session), (sessionTids l).Nodup →
      ∀ x, x ∈ sessionTids (tftp_sessions_list_pop_scan tid acc l) ↔
        x ∈ sessionTids acc ∨ (x ∈ sessionTids l ∧ x ≠ tid) := by
  intro acc l
  induction acc, l using tftp_sessions_list_pop_scan.induct tid with
  | case1 acc =>
    intro _ x
    rw [tftp_sessions_list_pop_scan]
    simp [sessionTids]
  | case2 acc s rest hs hlast =>
    intro hnd x
    have hrest : rest = [] := by simpa [List.getLast?_eq_none_iff] using hlast
    subst hrest
    rw [tftp_sessions_list_pop_scan]
    rw [if_pos (by simpa using hs), hlast]
    simp [sessionTids, hs]
  | case3 acc s rest hs lastS hlast ih =>
    intro hnd x
    rw [sessionTids_cons] at hnd
    have hndrest : (sessionTids rest).Nodup := hnd.of_cons
    have hnddrop : (sessionTids rest.dropLast).Nodup :=
      hndrest.sublist ((List.dropLast_sublist rest).map Session.tid)
    have hdecomp : rest.dropLast ++ [lastS] = rest :=
      List.dropLast_append_getLast? lastS (by rw [hlast]; rfl)
    have hlastmem : lastS.tid ∈ sessionTids rest := by
      rw [← hdecomp, sessionTids_append]
      simp [sessionTids]
    have hlastne : lastS.tid ≠ tid := by
      intro he
      rw [← he] at hs
      rw [List.nodup_cons] at hnd
      exact hnd.1 (hs ▸ hlastmem)
    have hmemrest : ∀ y, y ∈ sessionTids rest ↔
        y ∈ sessionTids rest.dropLast ∨ y = lastS.tid := by
      intro y
      rw [← hdecomp, sessionTids_append]
      simp [sessionTids]
    rw [tftp_sessions_list_pop_scan]
    rw [if_pos (by simpa using hs), hlast]
    rw [ih hnddrop x]
    rw [sessionTids_append, sessionTids_cons]
    simp only [List.mem_append, List.mem_cons, sessionTids, List.map_cons,
      List.map_nil, List.not_mem_nil, or_false]
    constructor
    · rintro ((h | h) | ⟨h, hne⟩)
      · exact Or.inl h
      · exact Or.inr ⟨Or.inr ((hmemrest x).mpr (Or.inr h)), h ▸ hlastne⟩
      · exact Or.inr ⟨Or.inr ((hmemrest x).mpr (Or.inl h)), hne⟩
    · rintro (h | ⟨h | h, hne⟩)
      · exact Or.inl (Or.inl h)
      · exact absurd (h.trans hs) hne
      · rcases (hmemrest x).mp h with h1 | h1
        · exact Or.inr ⟨h1, hne⟩
        · exact Or.inl (Or.inr h1)
  | case4 acc s rest hs ih =>
    intro hnd x
    rw [sessionTids_cons] at hnd
    rw [tftp_sessions_list_pop_scan]
    rw [if_neg (by simpa using hs)]
    rw [ih hnd.of_cons x]
    rw [sessionTids_append, sessionTids_cons]
    simp only [List.mem_append, List.mem_cons, sessionTids, List.map_cons,
      List.map_nil, List.not_mem_nil, or_false]
    constructor
    · rintro ((h | h) | ⟨h, hne⟩)
      · exact Or.inl h
      · exact Or.inr ⟨Or.inl h, h ▸ hs⟩
      · exact Or.inr ⟨Or.inr h, hne⟩
    · rintro (h | ⟨h | h, hne⟩)
      · exact Or.inl (Or.inl h)
      · exact Or.inl (Or.inr h)
      · exact Or.inr ⟨h, hne⟩

theorem pop_scan_nodup (tid : Nat) :
    ∀ (acc l : List Session), (sessionTids (acc ++ l)).Nodup →
      (sessionTids (tftp_sessions_list_pop_scan tid acc l)).Nodup := by
  intro acc l
  induction acc, l using tftp_sessions_list_pop_scan.induct tid with
  | case1 acc =>
    intro hnd
    rw [tftp_sessions_list_pop_scan]
    simpa using hnd
  | case2 acc s rest hs hlast =>
    intro hnd
    rw [tftp_sessions_list_pop_scan]
    rw [if_pos (by simpa using hs), hlast]
    exact hnd.sublist ((List.sublist_append_left acc (s :: rest)).map Session.tid)
  | case3 acc s rest hs lastS hlast ih =>
    intro hnd
    have hdecomp : rest.dropLast ++ [lastS] = rest :=
      List.dropLast_append_getLast? lastS (by rw [hlast]; rfl)
    rw [tftp_sessions_list_pop_scan]
    rw [if_pos (by simpa using hs), hlast]
    refine ih ?_
    have hR : sessionTids rest.dropLast ++ [lastS.tid] = sessionTids rest := by
      rw [← hdecomp]
      simp [sessionTids]
    have h4 : (sessionTids acc ++ sessionTids rest).Nodup := by
      rw [← sessionTids_append]
      refine hnd.sublist ?_
      refine List.Sublist.map Session.tid ?_
      exact (List.sublist_cons_self s rest).append_left acc
    have hperm : (sessionTids acc ++ ([lastS.tid] ++ sessionTids rest.dropLast)).Perm
        (sessionTids acc ++ sessionTids rest) := by
      refine List.Perm.append_left _ ?_
      rw [← hR]
      exact List.perm_append_comm
    have heq : sessionTids ((acc ++ [lastS]) ++ rest.dropLast) =
        sessionTids acc ++ ([lastS.tid] ++ sessionTids rest.dropLast) := by
      simp [sessionTids]
    rw [heq]
    exact hperm.symm.nodup h4
  | case4 acc s rest hs ih =>
    intro hnd
    rw [tftp_sessions_list_pop_scan]
    rw [if_neg (by simpa using hs)]
    refine ih ?_
    rw [show (acc ++ [s]) ++ rest = acc ++ (s :: rest) by simp]
    exact hnd

theorem pop_mem (l : List Session) (tid x : Nat) (hnd : (sessionTids l).Nodup) :
    x ∈ sessionTids (tftp_sessions_list_pop tid l) ↔
      x ∈ sessionTids l ∧ x ≠ tid := by
  rw [tftp_sessions_list_pop, pop_scan_mem tid [] l hnd x]
  simp [sessionTids]

theorem pop_nodup (l : List Session) (tid : Nat) (hnd : (sessionTids l).Nodup) :
    (sessionTids (tftp_sessions_list_pop tid l)).Nodup := by
  rw [tftp_sessions_list_pop]
  exact pop_scan_nodup tid [] l (by simpa using hnd)

theorem find_none_iff (l : List Session) (tid : Nat) :
    tftp_sessions_list_find l tid = none ↔ tid ∉ sessionTids l := by
  rw [tftp_sessions_list_find, List.findIdx?_eq_none_iff]
  simp only [sessionTids, List.mem_map, decide_eq_false_iff_not]
  constructor
  · rintro h ⟨s, hs, rfl⟩
    exact h s hs rfl
  · intro h s hs he
    exact h ⟨s, hs, he⟩

theorem find_some_get (l : List Session) (tid : Nat) :
    ∀ i, tftp_sessions_list_find l tid = some i →
      ∃ s, l.get? i = some s ∧ s.tid = tid := by
  rw [tftp_sessions_list_find]
  induction l with
  | nil => intro i h; simp [List.findIdx?] at h
  | cons a t ih =>
    intro i h
    rw [List.findIdx?_cons] at h
    by_cases ha : a.tid = tid
    · rw [if_pos (by simpa using ha)] at h
      cases h
      exact ⟨a, rfl, ha⟩
    · rw [if_neg (by simpa using ha), List.findIdx?_succ] at h
      cases hfi : List.findIdx? (fun s => decide (s.tid = tid)) t with
      | none =>
        rw [hfi] at h
        simp at h
      | some v =>
        rw [hfi] at h
        simp only [Option.map_some'] at h
        cases h
        obtain ⟨s, hs, hstid⟩ := ih v hfi
        exact ⟨s, hs, hstid⟩

theorem sessionTids_set (l : List Session) :
    ∀ (i : Nat) (s s' : Session), l.get? i = some s → s'.tid = s.tid →
      sessionTids (l.set i s') = sessionTids l := by
  induction l with
  | nil => intro i s s' hget _; simp [List.get?] at hget
  | cons a t ih =>
    intro i s s' hget htid
    cases i with
    | zero =>
      cases hget
      simp [sessionTids, htid]
    | succ j =>
      simp only [List.set_cons_succ, sessionTids_cons]
      rw [ih j s s' hget htid]

theorem advance_data_eq (l : List Session) (i tid b : Nat) (s : Session)
    (payload : List Nat) (env : FsEnv)
    (hfind : tftp_sessions_list_find l tid = some i) (hget : l.get? i = some s) :
    tftp_session_advance l tid (.data b payload) env =
      (if ¬ s.fileOpen then (.assertFailed, l)
       else if b = s.lastBlock then (.ok b, l)
       else if s.lastBlock + 1 ≠ b then (.assertFailed, l)
       else if ¬ env.fwriteOk then
         (.errDiskFull, tftp_sessions_list_pop tid (l.set i { s with lastBlock := b }))
       else if payload.length ≠ TFTP_BLOCK_SIZE then
         (.ok b, tftp_sessions_list_pop tid ((l.set i { s with lastBlock := b }).set i
           { s with lastBlock := b, writes := s.writes ++ [payload] }))
       else (.ok b, (l.set i { s with lastBlock := b }).set i
         { s with lastBlock := b, writes := s.writes ++ [payload] })) := by
  simp only [tftp_session_advance, hfind, hget]

theorem advance_unknown_eq (l : List Session) (tid : Nat) (pkt : Packet) (env : FsEnv)
    (hfind : tftp_sessions_list_find l tid = none) :
    tftp_session_advance l tid pkt env =
      (match pkt with
       | .wrq _ _ =>
         if env.fopenOk then
           (.ok 0, (tftp_sessions_list_push l tid).set
             ((tftp_sessions_list_push l tid).length - 1)
             { tftp_session_init tid with fileOpen := true })
         else (.assertFailed, tftp_sessions_list_push l tid)
       | .data _ _ => (.assertFailed, tftp_sessions_list_push l tid)
       | .rrq _ _ => (.undefinedBehavior, tftp_sessions_list_push l tid)
       | .ack _ => (.undefinedBehavior, tftp_sessions_list_push l tid)
       | .error _ _ => (.undefinedBehavior, tftp_sessions_list_push l tid)) := by
  have hgetpush : (tftp_sessions_list_push l tid).get?
      ((tftp_sessions_list_push l tid).length - 1) = some (tftp_session_init tid) := by
    rw [tftp_sessions_list_push]
    simp only [List.length_append, List.length_cons, List.length_nil,
      Nat.add_sub_cancel]
    exact List.get?_concat_length l (tftp_session_init tid)
  have hgetpush2 : (tftp_sessions_list_push l tid)[(tftp_sessions_list_push l tid).length - 1]? =
      some (tftp_session_init tid) := by
    rw [← List.get?_eq_getElem?]
    exact hgetpush
  cases pkt <;>
    simp [tftp_session_advance, hfind, hgetpush2, tftp_session_init]

theorem advance_get_none_eq (l : List Session) (tid i : Nat) (pkt : Packet) (env : FsEnv)
    (hfind : tftp_sessions_list_find l tid = some i) (hget : l.get? i = none) :
    tftp_session_advance l tid pkt env = (.assertFailed, l) := by
  simp only [tftp_session_advance, hfind, hget]

theorem advance_wrq_eq (l : List Session) (i tid : Nat) (s : Session)
    (filename mode : List Nat) (env : FsEnv)
    (hfind : tftp_sessions_list_find l tid = some i) (hget : l.get? i = some s) :
    tftp_session_advance l tid (.wrq filename mode) env =
      (if s.fileOpen then (.assertFailed, l)
       else if s.lastBlock ≠ 0 then (.assertFailed, l)
       else if env.fopenOk then (.ok 0, l.set i { s with fileOpen := true })
       else (.assertFailed, l)) := by
  simp only [tftp_session_advance, hfind, hget]

theorem advance_other_eq (l : List Session) (i tid : Nat) (s : Session)
    (pkt : Packet) (env : FsEnv)
    (hfind : tftp_sessions_list_find l tid = some i) (hget : l.get? i = some s)
    (hpkt : (match pkt with
      | .rrq _ _ => True | .ack _ => True | .error _ _ => True | _ => False)) :
    tftp_session_advance l tid pkt env = (.undefinedBehavior, l) := by
  cases pkt <;> simp only [tftp_session_advance, hfind, hget] <;> simp at hpkt

theorem advance_nodup (l : List Session) (tid : Nat) (pkt : Packet) (env : FsEnv)
    (hnd : (sessionTids l).Nodup) :
    (sessionTids (tftp_session_advance l tid pkt env).2).Nodup := by
  cases hfind : tftp_sessions_list_find l tid with
  | none =>
    have htid : tid ∉ sessionTids l := (find_none_iff l tid).mp hfind
    have hnd' : (sessionTids (tftp_sessions_list_push l tid)).Nodup := by
      rw [tftp_sessions_list_push, sessionTids_append]
      rw [List.nodup_append]
      refine ⟨hnd, by simp [sessionTids, tftp_session_init], ?_⟩
      intro x hx
      simp only [sessionTids, tftp_session_init, List.map_cons, List.map_nil,
        List.mem_singleton]
      intro he
      exact htid (he ▸ hx)
    have hgetpush : (tftp_sessions_list_push l tid).get?
        ((tftp_sessions_list_push l tid).length - 1) = some (tftp_session_init tid) := by
      rw [tftp_sessions_list_push]
      simp only [List.length_append, List.length_cons, List.length_nil,
        Nat.add_sub_cancel]
      exact List.get?_concat_length l (tftp_session_init tid)
    rw [advance_unknown_eq l tid pkt env hfind]
    cases pkt with
    | wrq filename mode =>
      by_cases hop : env.fopenOk
      · rw [if_pos hop]
        show (sessionTids ((tftp_sessions_list_push l tid).set
          ((tftp_sessions_list_push l tid).length - 1)
          { tftp_session_init tid with fileOpen := true })).Nodup
        rw [sessionTids_set (tftp_sessions_list_push l tid)
          ((tftp_sessions_list_push l tid).length - 1) (tftp_session_init tid)
          { tftp_session_init tid with fileOpen := true } hgetpush rfl]
        exact hnd'
      · rw [if_neg hop]
        exact hnd'
    | data b payload => exact hnd'
    | rrq filename mode => exact hnd'
    | ack b => exact hnd'
    | error c m => exact hnd'
  | some i =>
    cases hget : l.get? i with
    | none =>
      rw [advance_get_none_eq l tid i pkt env hfind hget]
      exact hnd
    | some s =>
      cases pkt with
      | wrq filename mode =>
        rw [advance_wrq_eq l i tid s filename mode env hfind hget]
        split_ifs with h1 h2 h3
        · exact hnd
        · exact hnd
        · show (sessionTids (l.set i { s with fileOpen := true })).Nodup
          rw [sessionTids_set l i s { s with fileOpen := true } hget rfl]
          exact hnd
        · exact hnd
      | data b payload =>
        have hlt : i < l.length := by
          obtain ⟨h, _⟩ := List.get?_eq_some.mp hget
          exact h
        have hset1 : (sessionTids (l.set i { s with lastBlock := b })).Nodup := by
          rw [sessionTids_set l i s { s with lastBlock := b } hget rfl]; exact hnd
        have hget1 : (l.set i { s with lastBlock := b }).get? i =
            some { s with lastBlock := b } :=
          List.get?_set_eq_of_lt _ hlt
        have hset2 : (sessionTids ((l.set i { s with lastBlock := b }).set i
            { s with lastBlock := b, writes := s.writes ++ [payload] })).Nodup := by
          rw [sessionTids_set (l.set i { s with lastBlock := b }) i
            { s with lastBlock := b }
            { s with lastBlock := b, writes := s.writes ++ [payload] } hget1 rfl]
          exact hset1
        rw [advance_data_eq l i tid b s payload env hfind hget]
        split_ifs <;>
          first
          | exact hnd
          | exact hset2
          | exact pop_nodup _ tid hset1
          | exact pop_nodup _ tid hset2
      | rrq filename mode =>
        rw [advance_other_eq l i tid s _ env hfind hget trivial]
        exact hnd
      | ack b =>
        rw [advance_other_eq l i tid s _ env hfind hget trivial]
        exact hnd
      | error c m =>
        rw [advance_other_eq l i tid s _ env hfind hget trivial]
        exact hnd

theorem push_get_last (l : List Session) (tid : Nat) :
    (tftp_sessions_list_push l tid).get?
      ((tftp_sessions_list_push l tid).length - 1) = some (tftp_session_init tid) := by
  rw [tftp_sessions_list_push]
  simp only [List.length_append, List.length_cons, List.length_nil, Nat.add_sub_cancel]
  exact List.get?_concat_length l (tftp_session_init tid)

/-- CLAIM C10: TID uniqueness invariant of the session table.  Every session
list reachable from the empty table by push (which asserts the TID absent),
pop, and advance has pairwise-distinct TIDs; and on such a list pop removes
exactly the entries of the popped TID — membership-wise, every other TID is
left in the table, so lookup by TID identifies at most one session. -/
theorem session_tids_nodup (l : List Session) (h : SessionsReachable l) :
    (sessionTids l).Nodup ∧
    ∀ tid x, x ∈ sessionTids (tftp_sessions_list_pop tid l) ↔
      x ∈ sessionTids l ∧ x ≠ tid := by
  have hnd : (sessionTids l).Nodup := by
    induction h with
    | nil => simp [sessionTids]
    | push l tid hl hfind ih =>
      have htid : tid ∉ sessionTids l := (find_none_iff l tid).mp hfind
      rw [tftp_sessions_list_push, sessionTids_append, List.nodup_append]
      refine ⟨ih, by simp [sessionTids, tftp_session_init], ?_⟩
      intro x hx
      simp only [sessionTids, tftp_session_init, List.map_cons, List.map_nil,
        List.mem_singleton]
      intro he
      exact htid (he ▸ hx)
    | pop l tid hl ih => exact pop_nodup l tid ih
    | advance l tid pkt env hl ih => exact advance_nodup l tid pkt env ih
  exact ⟨hnd, fun tid x => pop_mem l tid x hnd⟩

/-- Witness for C10 at the table holding the single TID 5, reached by one
push from the empty table. -/
theorem session_tids_nodup_witness :
    (sessionTids (tftp_sessions_list_push [] 5)).Nodup ∧
    (7 ∈ sessionTids (tftp_sessions_list_pop 7 (tftp_sessions_list_push [] 5)) ↔
      7 ∈ sessionTids (tftp_sessions_list_push [] 5) ∧ 7 ≠ 7) :=
  have h := session_tids_nodup (tftp_sessions_list_push [] 5)
    (SessionsReachable.push [] 5 SessionsReachable.nil rfl)
  ⟨h.1, h.2 7 7⟩

/-- CLAIM C9 (counterexample): a DATA from the unknown TID 9 arriving at the
empty session table makes `tftp_session_advance` create a session entry for
TID 9 — the push happens before the opcode is examined — and then abort on
the failed `assert(session->file)`.  This refutes "a session is created
only by a first WRQ from t (never by a DATA or other packet)". -/
theorem session_created_by_data_counterexample :
    tftp_session_advance [] 9 (.data 1 [1, 2]) ⟨true, true⟩ =
      (.assertFailed, [tftp_session_init 9]) := by
  decide

/-- CLAIM C9 (amended): session lifecycle as the code implements it.  A
session entry for TID t is created by the first packet of any kind from t —
not only by a WRQ; when that first packet is not a WRQ the daemon aborts on
a failed assertion (or reaches undefined behaviour), with the entry already
pushed.  An existing session is removed by the swap-pop — leaving,
membership-wise, exactly the entries of every other TID — when a DATA with
payload shorter than 512 bytes is written or when the write fails. -/
theorem session_lifecycle_amended (l : List Session) (tid : Nat) (pkt : Packet)
    (env : FsEnv) (i b : Nat) (s : Session) (payload : List Nat) :
    (tftp_sessions_list_find l tid = none →
      tid ∈ sessionTids (tftp_session_advance l tid pkt env).2) ∧
    (tftp_sessions_list_find l tid = none → (∀ fn md, pkt ≠ .wrq fn md) →
      (tftp_session_advance l tid pkt env).2 = tftp_sessions_list_push l tid) ∧
    ((sessionTids l).Nodup → tftp_sessions_list_find l tid = some i →
      l.get? i = some s → s.fileOpen = true → s.lastBlock = b →
      env.fwriteOk = true → payload.length ≠ TFTP_BLOCK_SIZE →
      (tftp_session_advance l tid (.data (b + 1) payload) env).1 = .ok (b + 1) ∧
      ∀ x, x ∈ sessionTids (tftp_session_advance l tid (.data (b + 1) payload) env).2 ↔
        x ∈ sessionTids l ∧ x ≠ tid) ∧
    ((sessionTids l).Nodup → tftp_sessions_list_find l tid = some i →
      l.get? i = some s → s.fileOpen = true → s.lastBlock = b →
      env.fwriteOk = false →
      (tftp_session_advance l tid (.data (b + 1) payload) env).1 = .errDiskFull ∧
      ∀ x, x ∈ sessionTids (tftp_session_advance l tid (.data (b + 1) payload) env).2 ↔
        x ∈ sessionTids l ∧ x ≠ tid) := by
  have hmem : tid ∈ sessionTids (tftp_sessions_list_push l tid) := by
    rw [tftp_sessions_list_push, sessionTids_append]
    simp [sessionTids, tftp_session_init]
  refine ⟨?_, ?_, ?_, ?_⟩
  · intro hfind
    rw [advance_unknown_eq l tid pkt env hfind]
    cases pkt with
    | wrq fn md =>
      by_cases hop : env.fopenOk
      · rw [if_pos hop]
        show tid ∈ sessionTids ((tftp_sessions_list_push l tid).set
          ((tftp_sessions_list_push l tid).length - 1)
          { tftp_session_init tid with fileOpen := true })
        rw [sessionTids_set (tftp_sessions_list_push l tid)
          ((tftp_sessions_list_push l tid).length - 1) (tftp_session_init tid)
          { tftp_session_init tid with fileOpen := true } (push_get_last l tid) rfl]
        exact hmem
      · rw [if_neg hop]
        exact hmem
    | data b payload => exact hmem
    | rrq fn md => exact hmem
    | ack k => exact hmem
    | error c m => exact hmem
  · intro hfind hnw
    rw [advance_unknown_eq l tid pkt env hfind]
    cases pkt with
    | wrq fn md => exact absurd rfl (hnw fn md)
    | data b payload => rfl
    | rrq fn md => rfl
    | ack k => rfl
    | error c m => rfl
  · intro hnd hfind hget hopen hlast hw hshort
    have hlt : i < l.length := by
      obtain ⟨h, _⟩ := List.get?_eq_some.mp hget
      exact h
    have hadv := advance_data_eq l i tid (b + 1) s payload env hfind hget
    rw [if_neg (by simp [hopen]), if_neg (by omega : ¬ b + 1 = s.lastBlock),
      if_neg (by omega : ¬ s.lastBlock + 1 ≠ b + 1), if_neg (by simp [hw]),
      if_pos hshort] at hadv
    have htids : sessionTids ((l.set i { s with lastBlock := b + 1 }).set i
        { s with lastBlock := b + 1, writes := s.writes ++ [payload] }) =
        sessionTids l := by
      rw [sessionTids_set (l.set i { s with lastBlock := b + 1 }) i
        { s with lastBlock := b + 1 }
        { s with lastBlock := b + 1, writes := s.writes ++ [payload] }
        (List.get?_set_eq_of_lt _ hlt) rfl]
      rw [sessionTids_set l i s { s with lastBlock := b + 1 } hget rfl]
    refine ⟨by rw [hadv], ?_⟩
    intro x
    rw [hadv]
    show x ∈ sessionTids (tftp_sessions_list_pop tid
      ((l.set i { s with lastBlock := b + 1 }).set i
        { s with lastBlock := b + 1, writes := s.writes ++ [payload] })) ↔ _
    rw [pop_mem _ tid x (by rw [htids]; exact hnd), htids]
  · intro hnd hfind hget hopen hlast hw
    have hadv := advance_data_eq l i tid (b + 1) s payload env hfind hget
    rw [if_neg (by simp [hopen]), if_neg (by omega : ¬ b + 1 = s.lastBlock),
      if_neg (by omega : ¬ s.lastBlock + 1 ≠ b + 1), if_pos (by simp [hw])] at hadv
    have htids : sessionTids (l.set i { s with lastBlock := b + 1 }) =
        sessionTids l := by
      rw [sessionTids_set l i s { s with lastBlock := b + 1 } hget rfl]
    refine ⟨by rw [hadv], ?_⟩
    intro x
    rw [hadv]
    show x ∈ sessionTids (tftp_sessions_list_pop tid
      (l.set i { s with lastBlock := b + 1 })) ↔ _
    rw [pop_mem _ tid x (by rw [htids]; exact hnd), htids]

/-- Witness for C9 (amended) at concrete inputs: an ACK from the unknown
TID 4 creates (then strands) an entry for 4; a short DATA(2) on the session
of TID 7 removes exactly that entry, as does a failed write. -/
theorem session_lifecycle_amended_witness :
    4 ∈ sessionTids (tftp_session_advance [] 4 (.ack 0) ⟨true, true⟩).2 ∧
    (tftp_session_advance [] 4 (.ack 0) ⟨true, true⟩).2 =
      tftp_sessions_list_push [] 4 ∧
    ((tftp_session_advance [⟨7, true, [], 1⟩] 7 (.data (1 + 1) [9]) ⟨true, true⟩).1 =
        .ok (1 + 1) ∧
      ∀ x, x ∈ sessionTids
          (tftp_session_advance [⟨7, true, [], 1⟩] 7 (.data (1 + 1) [9]) ⟨true, true⟩).2 ↔
        x ∈ sessionTids [⟨7, true, [], 1⟩] ∧ x ≠ 7) ∧
    ((tftp_session_advance [⟨7, true, [], 1⟩] 7 (.data (1 + 1) [9]) ⟨true, false⟩).1 =
        .errDiskFull ∧
      ∀ x, x ∈ sessionTids
          (tftp_session_advance [⟨7, true, [], 1⟩] 7 (.data (1 + 1) [9]) ⟨true, false⟩).2 ↔
        x ∈ sessionTids [⟨7, true, [], 1⟩] ∧ x ≠ 7) :=
  ⟨(session_lifecycle_amended [] 4 (.ack 0) ⟨true, true⟩ 0 0 (tftp_session_init 4)
      []).1 rfl,
   (session_lifecycle_amended [] 4 (.ack 0) ⟨true, true⟩ 0 0 (tftp_session_init 4)
      []).2.1 rfl (fun fn md h => Packet.noConfusion h),
   (session_lifecycle_amended [⟨7, true, [], 1⟩] 7 (.data 2 [9]) ⟨true, true⟩ 0 1
      ⟨7, true, [], 1⟩ [9]).2.2.1 (by decide) (by decide) (by decide) rfl rfl rfl
      (by decide),
   (session_lifecycle_amended [⟨7, true, [], 1⟩] 7 (.data 2 [9]) ⟨true, false⟩ 0 1
      ⟨7, true, [], 1⟩ [9]).2.2.2 (by decide) (by decide) (by decide) rfl rfl rfl⟩
